import Mathlib

/-!
Verification of the Python backend of a cross-language type-definition
transpiler (`src/core/src/language/python.rs`) against its natural-language
specification.  The data model, the Python backend's emission functions and
the type formatter are shallowly embedded below; the output sink (`w : &mut
dyn Write`) is embedded as the list of chunks appended so far, one chunk per
`writeln!` call.  Code of the repository that is not part of the shown
source (the `topsort` function, the `RustType` helpers, the generic
`format_type` dispatcher) is modelled from the specification, as marked in
the corresponding doc comments.
-/

set_option maxHeartbeats 1000000
set_option linter.unusedVariables false

/-- Target languages known to the generator (`SupportedLanguage`). -/
inductive SupportedLanguage where
  | python
  | go
  | kotlin
  | swift
  | typescript
deriving DecidableEq

/-- Identity of a declared item: original name and renamed/export name
(`id.original`, `id.renamed` in the source). -/
structure ItemId where
  original : String
  renamed : String
deriving DecidableEq

mutual

/-- Modelled from the spec: a `TypeRef` is "either a named reference to
another `TypeItem` (carrying generic arguments), or a `SpecialType`" (§3).
This mirrors the `RustType` value consumed by the source's formatter. -/
inductive RustType where
  | Simple (id : String)
  | Generic (id : String) (parameters : List RustType)
  | Special (ty : SpecialRustType)

/-- The closed set of special built-in shapes, with exactly the cases the
source's `format_special_type` matches on. -/
inductive SpecialRustType where
  | Vec (t : RustType)
  | Array (t : RustType) (len : Nat)
  | Slice (t : RustType)
  | Option (t : RustType)
  | HashMap (k : RustType) (v : RustType)
  | Unit
  | String
  | Char
  | I8
  | U8
  | U16
  | I16
  | I32
  | ISize
  | USize
  | U32
  | I54
  | I64
  | U53
  | U64
  | Bool
  | F32
  | F64

end

/-- A struct field (`RustField`): identity, type, doc comments and the
per-target-language literal type overrides (§3 `FieldDef`). -/
structure RustField where
  id : ItemId
  ty : RustType
  comments : List String
  lang_type_overrides : List (SupportedLanguage × String)

/-- Modelled from the spec: the per-field override lookup used by the source
as `field.type_override(SupportedLanguage::Python)` — "optional
per-target-language literal type override" (§3), consulted before the
generic formatter (§6). -/
def RustField.type_override (f : RustField) (l : SupportedLanguage) : Option String :=
  (f.lang_type_overrides.find? (fun o => decide (o.1 = l))).map (fun o => o.2)

/-- A struct definition (`RustStruct`): identity, generic-parameter names,
ordered fields and doc comments (§3 `StructDef`). -/
structure RustStruct where
  id : ItemId
  generic_types : List String
  fields : List RustField
  comments : List String

/-- A type alias (`RustTypeAlias`): identity, aliased type and doc
comments (§3 `AliasDef`). -/
structure RustTypeAlias where
  id : ItemId
  ty : RustType
  comments : List String

/-- Modelled from the spec: an enum variant — "each with an optional
associated value/shape" (§3 `EnumDef`). -/
structure EnumVariant where
  name : String
  payload : Option RustType

/-- An enum definition (`RustEnum`): identity plus variants; treated
opaquely by the Python backend (§3 `EnumDef`). -/
structure RustEnum where
  id : ItemId
  variants : List EnumVariant
  comments : List String

/-- The tagged union over the three item kinds (`RustItem`), used uniformly
by the dependency sorter. -/
inductive RustItem where
  | Struct (s : RustStruct)
  | Enum (e : RustEnum)
  | Alias (a : RustTypeAlias)

/-- Modelled from the spec: the immutable input snapshot `ParsedData` — "a
single immutable snapshot containing three ordered collections — structs,
enums, aliases" (§6). -/
structure ParsedData where
  structs : List RustStruct
  enums : List RustEnum
  aliases : List RustTypeAlias

/-- The Python backend state: only its `type_mappings` table (conversions
from Rust type names to target type names), embedded as an association
list. -/
structure Python where
  type_mappings : List (String × String)

/-- The default backend: an empty `type_mappings` table. -/
def pyDefault : Python := ⟨[]⟩

/-- Modelled from the spec: the `TypeFormatError` taxonomy entry — "the
formatter is asked to render a shape it cannot express (e.g., a generic
parameter with no binding)" (§7), "propagated with the offending type
reference attached". -/
inductive RustTypeFormatError where
  | UnboundGenericParameter (name : String)
deriving DecidableEq

/-- Named-reference rendering helper: substitute the backend's
`type_mappings` override if registered, else keep the name (§4.3, last
dispatch row). -/
def lookupMapping (p : Python) (id : String) : String :=
  match p.type_mappings.find? (fun m => decide (m.1 = id)) with
  | some m => m.2
  | none => id

mutual

/-- Modelled from the spec: the generic `format_type` dispatcher of the
backend contract (§4.3), which is not part of the shown source.  A plain
named reference renders as "the identity's renamed form, substituting any
typeMappings override if registered"; a special type dispatches to the
backend's `format_special_type`; a generic application that binds no
argument to the referenced type's generic parameter is a shape the
formatter cannot express — the spec's `TypeFormatError` example of "a
generic parameter with no binding" (§7). -/
def format_type (p : Python) (ty : RustType) (generic_types : List String) :
    Except RustTypeFormatError String :=
  match ty with
  | .Simple id => .ok (lookupMapping p id)
  | .Generic id [] => .error (.UnboundGenericParameter id)
  | .Generic id parameters =>
      match format_type_args p parameters generic_types with
      | .error e => .error e
      | .ok args => .ok (lookupMapping p id ++ "[" ++ String.intercalate ", " args ++ "]")
  | .Special s => format_special_type p s generic_types

/-- Modelled from the spec: rendering of a generic argument list, each
argument through the recursive formatter (§4.3). -/
def format_type_args (p : Python) (ts : List RustType) (generic_types : List String) :
    Except RustTypeFormatError (List String) :=
  match ts with
  | [] => .ok []
  | t :: rest =>
    match format_type p t generic_types with
    | .error e => .error e
    | .ok s =>
      match format_type_args p rest generic_types with
      | .error e => .error e
      | .ok ss => .ok (s :: ss)

/-- The source's `Python::format_special_type` (python.rs lines 69–101),
case for case: sequences render as `list[T]`, `Option` as `T|None`, maps as
`dict[K]V`, unit as `()`, all integer widths as `int`, `String`/`Char` as
`str`, booleans as `bool` and floats as `float`. -/
def format_special_type (p : Python) (special_ty : SpecialRustType) (generic_types : List String) :
    Except RustTypeFormatError String :=
  match special_ty with
  | .Vec rtype | .Array rtype _ | .Slice rtype =>
    match format_type p rtype generic_types with
    | .error e => .error e
    | .ok s => .ok ("list[" ++ s ++ "]")
  | .Option rtype =>
    match format_type p rtype generic_types with
    | .error e => .error e
    | .ok s => .ok (s ++ "|None")
  | .HashMap rtype1 rtype2 =>
    match format_type p rtype1 generic_types with
    | .error e => .error e
    | .ok s1 =>
      match format_type p rtype2 generic_types with
      | .error e => .error e
      | .ok s2 => .ok ("dict[" ++ s1 ++ "]" ++ s2)
  | .Unit => .ok "()"
  | .String => .ok "str"
  | .Char => .ok "str"
  | .I8 | .U8 | .U16 | .I32 | .I16 | .ISize | .USize => .ok "int"
  | .U32 => .ok "int"
  | .I54 | .I64 => .ok "int"
  | .U53 | .U64 => .ok "int"
  | .Bool => .ok "bool"
  | .F32 => .ok "float"
  | .F64 => .ok "float"

end

/-- Outcome of one emission call: `ok` mirrors `Ok(())`, `error` mirrors
the `Err` produced by wrapping a `RustTypeFormatError` into an
`std::io::Error`, and `panicked` mirrors an uncontrolled `panic!` with its
message. -/
inductive EmitResult where
  | ok
  | error (e : RustTypeFormatError)
  | panicked (msg : String)
deriving DecidableEq

/-- The append-only output sink: one chunk per `writeln!` call.  `writeln`
appends the formatted content followed by the newline the macro adds. -/
def writeln (w : List String) (line : String) : List String :=
  w ++ [line ++ "\n"]

/-- A string of `n` tab characters (`"\t".repeat(indent)`). -/
def tabs (n : Nat) : String :=
  String.mk (List.replicate n '\t')

/-- The chunks produced by `write_comments` (python.rs lines 183–192): one
`"{}# {}"` line per comment at the given indent. -/
def commentChunks (indent : Nat) (comments : List String) : List String :=
  comments.map (fun c => tabs indent ++ "# " ++ c ++ "\n")

/-- Whether a character needs no escaping under Rust's `Debug` formatting
of strings: letters, digits and the underscore are all unescaped. -/
def isIdentChar (c : Char) : Bool :=
  c.isAlphanum || c = '_'

/-- One character of Rust's `Debug` string formatting (the `{:?}` at
python.rs line 165): quotes, backslashes and control characters are
escaped, everything else passes through. -/
def escapeChar (c : Char) : List Char :=
  if c = '"' then ['\\', '"']
  else if c = '\\' then ['\\', '\\']
  else if c = '\t' then ['\\', 't']
  else if c = '\n' then ['\\', 'n']
  else if c = '\r' then ['\\', 'r']
  else [c]

/-- The `renamed_id` computed at python.rs lines 165–166: the Rust `Debug`
rendering of the renamed name with the surrounding quotes sliced off,
i.e. the escaped content itself. -/
def debugEscape (s : String) : String :=
  String.mk (s.data.flatMap escapeChar)

/-- Modelled from the spec: `RustType::is_optional`, the helper the source
calls at python.rs line 176 — the field-emission step's test of whether "a
field's `TypeRef` is already `Optional<T>`" (§4.3). -/
def RustType.is_optional : RustType → Bool
  | .Special (.Option _) => true
  | _ => false

/-- The type name chosen at python.rs lines 158–163: the Python override
when registered, otherwise the generic formatter's result. -/
def typeNameOf (p : Python) (field : RustField) (generic_types : List String) :
    Except RustTypeFormatError String :=
  match field.type_override SupportedLanguage.python with
  | some type_override => .ok type_override
  | none => format_type p field.ty generic_types

/-- The rename-annotation chunks of python.rs lines 168–170: one
`@JsonProperty` line exactly when `renamed != original`. -/
def renameChunks (field : RustField) : List String :=
  if field.id.renamed ≠ field.id.original then
    ["\t@JsonProperty(\"" ++ debugEscape field.id.renamed ++ "\")\n"]
  else
    []

/-- The field line of python.rs lines 171–177: `\t{original}: {type}` plus
`|None` when the field's type is optional. -/
def fieldChunk (field : RustField) (type_name : String) : String :=
  "\t" ++ field.id.original ++ ": " ++ type_name ++
    (if field.ty.is_optional then "|None" else "") ++ "\n"

/-- `Python::write_field` (python.rs lines 150–180): comments first, then
the fallible type-name resolution, then the optional rename annotation and
the field line. -/
def write_field (p : Python) (w : List String) (field : RustField) (generic_types : List String) :
    List String × EmitResult :=
  let w1 := w ++ commentChunks 1 field.comments
  match typeNameOf p field generic_types with
  | .error e => (w1, .error e)
  | .ok type_name =>
    (w1 ++ renameChunks field ++ [fieldChunk field type_name], .ok)

/-- Iteration of `write_field` over a struct's fields
(`rs.fields.iter().try_for_each(...)`, python.rs lines 131–133): stops at
the first failing field. -/
def write_fields (p : Python) (w : List String) (fields : List RustField)
    (generic_types : List String) : List String × EmitResult :=
  match fields with
  | [] => (w, .ok)
  | f :: rest =>
    match write_field p w f generic_types with
    | (w', .ok) => write_fields p w' rest generic_types
    | other => other

/-- `Python::write_type_alias` (python.rs lines 109–121): comments, then a
single `{original} = {formatted type}\n` line (the trailing `\n` inside the
format string yields a blank line after the binding). -/
def write_type_alias (p : Python) (w : List String) (ty : RustTypeAlias) :
    List String × EmitResult :=
  let w1 := w ++ commentChunks 0 ty.comments
  match format_type p ty.ty [] with
  | .error e => (w1, .error e)
  | .ok s => (w1 ++ [ty.id.original ++ " = " ++ s ++ "\n" ++ "\n"], .ok)

/-- `Python::write_struct` (python.rs lines 123–137): comments, the
`class {renamed}:` header, the fields in declared order, then a blank
line. -/
def write_struct (p : Python) (w : List String) (rs : RustStruct) :
    List String × EmitResult :=
  let w1 := w ++ commentChunks 0 rs.comments ++ ["class " ++ rs.id.renamed ++ ":" ++ "\n"]
  match write_fields p w1 rs.fields rs.generic_types with
  | (w2, .ok) => (w2 ++ ["\n"], .ok)
  | other => other

/-- `Python::write_enum` (python.rs lines 141–148): the body is a single
`panic!("Enums are not supported in python")`, reached before anything is
written to the sink. -/
def write_enum (w : List String) (e : RustEnum) (custom_structs : List String) :
    List String × EmitResult :=
  (w, .panicked "Enums are not supported in python")

/-- Modelled from the spec: `RustType::id`, the name a type reference
refers to — for a named reference its name; for a special type its
canonical Rust name (used at python.rs line 29 as `alias.r#type.id()`). -/
def RustType.refId : RustType → String
  | .Simple id => id
  | .Generic id _ => id
  | .Special s =>
    match s with
    | .Vec _ => "Vec"
    | .Array _ _ => "Array"
    | .Slice _ => "Slice"
    | .Option _ => "Option"
    | .HashMap _ _ => "HashMap"
    | .Unit => "()"
    | .String => "String"
    | .Char => "char"
    | .I8 => "i8"
    | .U8 => "u8"
    | .U16 => "u16"
    | .I16 => "i16"
    | .I32 => "i32"
    | .ISize => "isize"
    | .USize => "usize"
    | .U32 => "u32"
    | .I54 => "i54"
    | .I64 => "i64"
    | .U53 => "u53"
    | .U64 => "u64"
    | .Bool => "bool"
    | .F32 => "f32"
    | .F64 => "f64"

/-- One step of the struct-like computation (python.rs lines 28–32): an
alias's original name is inserted when its target's name is already in
the set.  The `HashSet` is embedded as the list of inserted names. -/
def structLikeStep (acc : List String) (alias_def : RustTypeAlias) : List String :=
  if alias_def.ty.refId ∈ acc then acc ++ [alias_def.id.original] else acc

/-- The struct-like set computed at python.rs lines 24–32: seed with all
struct original names, then make one pass over the aliases in declaration
order, inserting each alias whose target's name is already in the set. -/
def structLikeSet (structs : List RustStruct) (aliases : List RustTypeAlias) : List String :=
  aliases.foldl structLikeStep (structs.map (fun s => s.id.original))

/-- The name of an item's identity, used for dependency edges. -/
def itemName : RustItem → String
  | .Struct s => s.id.original
  | .Enum e => e.id.original
  | .Alias a => a.id.original

mutual

/-- Modelled from the spec: the names referenced by a type, "unwrapping
containers and optionals to find the innermost named references"
(§4.1). -/
def namedRefs : RustType → List String
  | .Simple id => [id]
  | .Generic id parameters => id :: namedRefsList parameters
  | .Special s =>
    match s with
    | .Vec t | .Array t _ | .Slice t | .Option t => namedRefs t
    | .HashMap k v => namedRefs k ++ namedRefs v
    | _ => []

/-- Modelled from the spec: named references of a list of types. -/
def namedRefsList : List RustType → List String
  | [] => []
  | t :: ts => namedRefs t ++ namedRefsList ts

end

/-- Modelled from the spec: the dependency edges of one item — "edges are
'references' extracted from each item's field/variant/alias types"
(§4.1). -/
def itemDeps : RustItem → List String
  | .Struct s => (s.fields.map (fun f => namedRefs f.ty)).flatten
  | .Enum e => (e.variants.map (fun v => (v.payload.map namedRefs).getD [])).flatten
  | .Alias a => namedRefs a.ty

/-- Modelled from the spec: an item is ready for emission when each of its
dependencies is either itself ("self-references are not edges", §4.1) or
not among the still-pending items. -/
def readyIn (pending : List RustItem) (x : RustItem) : Bool :=
  (itemDeps x).all
    (fun d => decide (d = itemName x) || decide (d ∉ pending.map itemName))

/-- First element of the list satisfying the predicate, together with the
remaining elements in order. -/
def extractFirst (pr : α → Bool) : List α → Option (α × List α)
  | [] => none
  | x :: xs =>
    if pr x then some (x, xs)
    else (extractFirst pr xs).map (fun r => (r.1, x :: r.2))

/-- Modelled from the spec: one Kahn round per unit of fuel — repeatedly
emit the first pending item all of whose dependencies are satisfied,
breaking ties "by original declaration order" (§4.1); when no item is
ready (a true cycle), the remaining items are kept in order as the defined
fallback (§2). -/
def topsortGo : Nat → List RustItem → List RustItem
  | 0, pending => pending
  | n + 1, pending =>
    match extractFirst (readyIn pending) pending with
    | none => pending
    | some (x, rest) => x :: topsortGo n rest

/-- Modelled from the spec: the `topsort` called at python.rs line 50 — a
"Kahn-style topological sort over a graph whose nodes are item identities"
(§4.1). -/
def topsort (items : List RustItem) : List RustItem :=
  topsortGo items.length items

/-- The worklist built at python.rs lines 36–48: all aliases, then all
structs, then all enums, each collection in input order. -/
def worklist (data : ParsedData) : List RustItem :=
  data.aliases.map RustItem.Alias ++ data.structs.map RustItem.Struct ++
    data.enums.map RustItem.Enum

/-- The per-item dispatch of the emission loop (python.rs lines 52–58). -/
def writeItem (p : Python) (set : List String) (w : List String) :
    RustItem → List String × EmitResult
  | .Enum e => write_enum w e set
  | .Struct s => write_struct p w s
  | .Alias a => write_type_alias p w a

/-- The emission loop over the sorted items (python.rs lines 52–58): the
`?` operator stops at the first failure, and a panic aborts the run. -/
def writeItems (p : Python) (set : List String) (w : List String) :
    List RustItem → List String × EmitResult
  | [] => (w, .ok)
  | i :: rest =>
    match writeItem p set w i with
    | (w', .ok) => writeItems p set w' rest
    | other => other

/-- `Python::generate_types` (python.rs lines 21–63): compute the
struct-like set, emit the file header (`begin_file` writes one empty
line), sort the worklist, emit every item in sorted order, and finish with
`end_file` (modelled from the spec as empty framing, §4.2). -/
def generate_types (p : Python) (w : List String) (data : ParsedData) :
    List String × EmitResult :=
  let types_mapping_to_struct := structLikeSet data.structs data.aliases
  let w1 := writeln w ""
  writeItems p types_mapping_to_struct w1 (topsort (worklist data))

/-- Modelled from the spec: the input's declaration order across kinds —
the snapshot's "three ordered collections — structs, enums, aliases"
(§6), flattened in that order. -/
def declarationOrder (data : ParsedData) : List RustItem :=
  data.structs.map RustItem.Struct ++ data.enums.map RustItem.Enum ++
    data.aliases.map RustItem.Alias

/-- Decidable acyclicity of the reference graph: every nonempty subset of
the items contains a member all of whose dependencies leave the subset
(the standard Kahn progress condition, equivalent to the absence of a
dependency cycle on a finite graph). -/
def acyclicB (items : List RustItem) : Bool :=
  items.sublists.all (fun s => s.isEmpty || s.any (readyIn s))

/-- The reference graph of the items is acyclic. -/
def Acyclic (items : List RustItem) : Prop :=
  acyclicB items = true

/-- A sequence of items respects dependencies: whenever the item at
position `i` references by name the item at position `j`, the referenced
item sits at or before position `i` — unless the reference is a
self-reference by name. -/
def SortedByDeps (l : List RustItem) : Prop :=
  ∀ i j (hi : i < l.length) (hj : j < l.length),
    itemName (l.get ⟨j, hj⟩) ∈ itemDeps (l.get ⟨i, hi⟩) →
    itemName (l.get ⟨j, hj⟩) = itemName (l.get ⟨i, hi⟩) ∨ j ≤ i

/-- No item references another item of the collection by name (only
self-references or references leaving the collection): every item is
ready with the whole collection pending. -/
def Independent (items : List RustItem) : Prop :=
  items.all (readyIn items) = true

/-- Follows the spec's words (§3 `StructLikeSet`): one propagation pass
over the alias collection, inserting an alias whose target is already
struct-like. -/
def structLikePass (aliases : List RustTypeAlias) (s : List String) : List String :=
  aliases.foldl structLikeStep s

/-- Follows the spec's words (§3 `StructLikeSet`): "seeding with all
`StructDef` names and then propagating through `AliasDef` chains (an alias
of a struct-like type is itself struct-like)" — the propagation pass is
iterated to a fixpoint, so the result is independent of the order of the
alias collection. -/
def structLikeClosure (structs : List RustStruct) (aliases : List RustTypeAlias) :
    List String :=
  (structLikePass aliases)^[aliases.length + 1] (structs.map (fun s => s.id.original))

/-- An alias chain that proceeds strictly leftwards through the alias
list: a name is struct-like in declaration order when it is a struct name,
or it is the last alias's name and the alias's target was already
struct-like among the earlier aliases. -/
inductive OrderedStructLike (sn : List String) : List RustTypeAlias → String → Prop where
  | base (aliases : List RustTypeAlias) (n : String) :
      n ∈ sn → OrderedStructLike sn aliases n
  | keep (aliases : List RustTypeAlias) (a : RustTypeAlias) (n : String) :
      OrderedStructLike sn aliases n → OrderedStructLike sn (aliases ++ [a]) n
  | link (aliases : List RustTypeAlias) (a : RustTypeAlias) :
      OrderedStructLike sn aliases a.ty.refId →
      OrderedStructLike sn (aliases ++ [a]) a.id.original

/-- The `Point` struct of the spec's end-to-end example (§8.7). -/
def pointStruct : RustStruct :=
  { id := { original := "Point", renamed := "Point" }
    generic_types := []
    fields :=
      [ { id := { original := "x", renamed := "x" }, ty := .Special .F64,
          comments := [], lang_type_overrides := [] }
      , { id := { original := "y", renamed := "y" }, ty := .Special .F64,
          comments := [], lang_type_overrides := [] } ]
    comments := [] }

/-- The `Coordinates = List<Point>` alias of the spec's end-to-end
example (§8.7). -/
def coordinatesAlias : RustTypeAlias :=
  { id := { original := "Coordinates", renamed := "Coordinates" }
    ty := .Special (.Vec (.Simple "Point"))
    comments := [] }

/-- The end-to-end example snapshot: one struct, one alias. -/
def pointData : ParsedData :=
  { structs := [pointStruct], enums := [], aliases := [coordinatesAlias] }

/-- A field whose type is `Optional<String>`, with no override. -/
def optField : RustField :=
  { id := { original := "maybe", renamed := "maybe" }
    ty := .Special (.Option (.Special .String))
    comments := []
    lang_type_overrides := [] }

/-- A plain enum definition. -/
def colorEnum : RustEnum :=
  { id := { original := "Color", renamed := "Color" }
    variants := [{ name := "Red", payload := none }]
    comments := [] }

/-- A snapshot containing a single enum. -/
def enumData : ParsedData :=
  { structs := [], enums := [colorEnum], aliases := [] }

/-- A struct named `A`, no fields. -/
def structA : RustStruct :=
  { id := { original := "A", renamed := "A" }, generic_types := [], fields := [],
    comments := [] }

/-- An alias `C = B`, declared before `B` is known to be struct-like. -/
def aliasC : RustTypeAlias :=
  { id := { original := "C", renamed := "C" }, ty := .Simple "B", comments := [] }

/-- An alias `B = A` onto the struct `A`. -/
def aliasB : RustTypeAlias :=
  { id := { original := "B", renamed := "B" }, ty := .Simple "A", comments := [] }

/-- An alias `Z = i64`, independent of every other item. -/
def aliasZ : RustTypeAlias :=
  { id := { original := "Z", renamed := "Z" }, ty := .Special .I64, comments := [] }

/-- A snapshot with one struct and one independent alias. -/
def d7 : ParsedData :=
  { structs := [structA], enums := [], aliases := [aliasZ] }

/-- A field of named type `Timestamp` carrying a Python type override
`int64` (the spec's override-precedence example, §8.6). -/
def tsField : RustField :=
  { id := { original := "ts", renamed := "ts" }
    ty := .Simple "Timestamp"
    comments := []
    lang_type_overrides := [(SupportedLanguage.python, "int64")] }

/-- The same `Timestamp` field without any override. -/
def tsFieldPlain : RustField :=
  { id := { original := "ts", renamed := "ts" }
    ty := .Simple "Timestamp"
    comments := []
    lang_type_overrides := [] }

/-- A backend whose mapping table would render `Timestamp` differently,
to exhibit that the override bypasses the formatter. -/
def pyMapped : Python := ⟨[("Timestamp", "Mapped")]⟩

/-- A field whose type the formatter cannot express (a generic parameter
applied to arguments), with a doc comment. -/
def badField : RustField :=
  { id := { original := "bad", renamed := "bad" }
    ty := .Generic "T" []
    comments := ["doc"]
    lang_type_overrides := [] }

/-- An alias whose target the formatter cannot express, with a doc
comment. -/
def badAlias : RustTypeAlias :=
  { id := { original := "Bad", renamed := "Bad" }
    ty := .Special (.Vec (.Generic "T" []))
    comments := ["doc"] }

/-- The rename-propagation example field (§8.5): original `user_id`,
renamed `userId`. -/
def userField : RustField :=
  { id := { original := "user_id", renamed := "userId" }
    ty := .Special .String
    comments := ["The user"]
    lang_type_overrides := [] }

/-- C1: the Python backend's `write_enum` never returns a typed
`UnsupportedConstructError` to its caller: for every enum and every sink it
aborts by panicking with a fixed message that does not name the enum, and
a whole `generate_types` run over a snapshot containing an enum ends in
that panic. -/
theorem c1_enum_write_panics :
    (∀ (w : List String) (e : RustEnum) (set : List String),
      write_enum w e set = (w, .panicked "Enums are not supported in python")) ∧
    generate_types pyDefault [] enumData =
      (["\n"], .panicked "Enums are not supported in python") := by
  exact ⟨fun w e set => rfl, by decide⟩

/-- C2: emitting the `Optional<String>` field without an override yields
the nullability marker twice — the formatter already renders `str|None`
and the field-emission step appends a second `|None`. -/
theorem c2_optional_double_marker :
    write_field pyDefault [] optField [] = (["\tmaybe: str|None|None\n"], .ok) ∧
    format_type pyDefault (.Special (.Option (.Special .String))) [] = .ok "str|None" := by
  exact ⟨by decide, rfl⟩

/-- C10: for every key and value type whose renderings succeed,
`format_special_type` on `Map<K,V>` returns exactly
`"dict[" ++ K ++ "]" ++ V` — the value type lands outside the brackets
with no separator. -/
theorem c10_map_format (p : Python) (g : List String) (k v : RustType) (ks vs : String)
    (hk : format_type p k g = .ok ks) (hv : format_type p v g = .ok vs) :
    format_special_type p (.HashMap k v) g = .ok ("dict[" ++ ks ++ "]" ++ vs) := by
  rw [format_special_type, hk, hv]

theorem c10_witness :
    format_type pyDefault (.Special .String) [] = .ok "str" ∧
    format_type pyDefault (.Special .I64) [] = .ok "int" ∧
    format_special_type pyDefault (.HashMap (.Special .String) (.Special .I64)) [] =
      .ok ("dict[" ++ "str" ++ "]" ++ "int") :=
  ⟨rfl, rfl, c10_map_format pyDefault [] _ _ "str" "int" rfl rfl⟩

/-- C4: with a Python override registered the field's type renders as
exactly the override's literal string, the emission succeeds whatever the
formatter would do, and the result is independent of the backend's mapping
table; with no override the formatter's result is what lands in the field
line. -/
theorem c4_override_precedence (w : List String) (f : RustField) (g : List String) :
    (∀ (p p' : Python) (o : String), f.type_override SupportedLanguage.python = some o →
      write_field p w f g =
        (w ++ commentChunks 1 f.comments ++ renameChunks f ++ [fieldChunk f o], .ok) ∧
      write_field p w f g = write_field p' w f g) ∧
    (∀ (p : Python) (s : String), f.type_override SupportedLanguage.python = none →
      format_type p f.ty g = .ok s →
      write_field p w f g =
        (w ++ commentChunks 1 f.comments ++ renameChunks f ++ [fieldChunk f s], .ok)) := by
  constructor
  · intro p p' o h
    constructor
    · rw [write_field, typeNameOf, h]
    · rw [write_field, typeNameOf, h, write_field, typeNameOf, h]
  · intro p s h hfmt
    rw [write_field, typeNameOf, h, hfmt]

theorem c4_witness :
    (write_field pyMapped [] tsField [] =
      ([] ++ commentChunks 1 tsField.comments ++ renameChunks tsField ++
        [fieldChunk tsField "int64"], .ok) ∧
     write_field pyMapped [] tsField [] = write_field pyDefault [] tsField []) ∧
    write_field pyMapped [] tsFieldPlain [] =
      ([] ++ commentChunks 1 tsFieldPlain.comments ++ renameChunks tsFieldPlain ++
        [fieldChunk tsFieldPlain "Mapped"], .ok) :=
  ⟨(c4_override_precedence [] tsField []).1 pyMapped pyDefault "int64" rfl,
   (c4_override_precedence [] tsFieldPlain []).2 pyMapped "Mapped" rfl rfl⟩

/-- C8 counterexample: emitting the `badField` fails with a type-format
error, yet the sink is no longer empty — the field's doc-comment line was
already written before the failure. -/
theorem c8_counterexample :
    (write_field pyDefault [] badField []).2 =
      .error (.UnboundGenericParameter "T") ∧
    (write_field pyDefault [] badField []).1 = ["\t# doc\n"] ∧
    (["\t# doc\n"] : List String) ≠ [] := by
  exact ⟨by decide, by decide, by decide⟩

/-- C8 amended: when emitting a field or an alias fails with a type-format
error, the emission is aborted before any declaration text is written —
only the item's doc-comment lines have reached the sink. -/
theorem c8_abort_after_comments :
    (∀ (p : Python) (w : List String) (f : RustField) (g : List String)
        (e : RustTypeFormatError),
      (write_field p w f g).2 = .error e →
      (write_field p w f g).1 = w ++ commentChunks 1 f.comments) ∧
    (∀ (p : Python) (w : List String) (a : RustTypeAlias) (e : RustTypeFormatError),
      (write_type_alias p w a).2 = .error e →
      (write_type_alias p w a).1 = w ++ commentChunks 0 a.comments) := by
  constructor
  · intro p w f g e h
    rw [write_field] at h ⊢
    cases htn : typeNameOf p f g with
    | error e' => rfl
    | ok t => rw [htn] at h; simp at h
  · intro p w a e h
    rw [write_type_alias] at h ⊢
    cases hfmt : format_type p a.ty [] with
    | error e' => rfl
    | ok t => rw [hfmt] at h; simp at h

theorem c8_witness :
    ((write_field pyDefault [] badField []).2 = .error (.UnboundGenericParameter "T")) ∧
    (write_field pyDefault [] badField []).1 = [] ++ commentChunks 1 badField.comments ∧
    ((write_type_alias pyDefault [] badAlias).2 = .error (.UnboundGenericParameter "T")) ∧
    (write_type_alias pyDefault [] badAlias).1 = [] ++ commentChunks 0 badAlias.comments := by
  refine ⟨by decide, (c8_abort_after_comments).1 pyDefault [] badField []
    (.UnboundGenericParameter "T") (by decide), by decide,
    (c8_abort_after_comments).2 pyDefault [] badAlias
      (.UnboundGenericParameter "T") (by decide)⟩

/-- The sink only grows across `write_field`: the result is the input sink
plus the chunks of this field. -/
theorem write_field_sink (p : Python) (w : List String) (f : RustField) (g : List String) :
    ∃ δ, (write_field p w f g).1 = w ++ δ := by
  rw [write_field]
  cases htn : typeNameOf p f g with
  | error e => exact ⟨commentChunks 1 f.comments, rfl⟩
  | ok t => exact ⟨commentChunks 1 f.comments ++ renameChunks f ++ [fieldChunk f t], by simp⟩

/-- The sink only grows across `write_fields`. -/
theorem write_fields_sink :
    ∀ (fields : List RustField) (p : Python) (w g : List String),
      ∃ δ, (write_fields p w fields g).1 = w ++ δ
  | [], p, w, g => ⟨[], by simp [write_fields]⟩
  | f :: rest, p, w, g => by
    rw [write_fields]
    rcases hwf : write_field p w f g with ⟨w1, r⟩
    obtain ⟨δ1, hδ1⟩ := write_field_sink p w f g
    rw [hwf] at hδ1
    simp only [] at hδ1
    cases r with
    | ok =>
      obtain ⟨δ2, hδ2⟩ := write_fields_sink rest p w1 g
      refine ⟨δ1 ++ δ2, ?_⟩
      show (write_fields p w1 rest g).1 = w ++ (δ1 ++ δ2)
      rw [hδ2, hδ1, List.append_assoc]
    | error e => exact ⟨δ1, hδ1⟩
    | panicked m => exact ⟨δ1, hδ1⟩

/-- C9: the alias writer emits the binding under the alias's original
name — its output is unchanged by any renamed name on the alias's
identity — whereas the struct writer's class header uses the struct's
renamed name. -/
theorem c9_alias_rename_ignored :
    (∀ (p : Python) (w : List String) (a : RustTypeAlias) (r : String),
      write_type_alias p w { a with id := { a.id with renamed := r } } =
        write_type_alias p w a) ∧
    (∀ (p : Python) (w : List String) (rs : RustStruct),
      ∃ rest, (write_struct p w rs).1 =
        w ++ commentChunks 0 rs.comments ++
          ("class " ++ rs.id.renamed ++ ":" ++ "\n") :: rest) := by
  constructor
  · intro p w a r
    rfl
  · intro p w rs
    rw [write_struct]
    rcases hwf : write_fields p
        (w ++ commentChunks 0 rs.comments ++ ["class " ++ rs.id.renamed ++ ":" ++ "\n"])
        rs.fields rs.generic_types with ⟨w2, r⟩
    obtain ⟨δ, hδ⟩ := write_fields_sink rs.fields p
        (w ++ commentChunks 0 rs.comments ++ ["class " ++ rs.id.renamed ++ ":" ++ "\n"])
        rs.generic_types
    rw [hwf] at hδ
    simp only [] at hδ
    cases r with
    | ok => exact ⟨δ ++ ["\n"], by simp [hδ, List.append_assoc]⟩
    | error e => exact ⟨δ, by simp [hδ, List.append_assoc]⟩
    | panicked m => exact ⟨δ, by simp [hδ, List.append_assoc]⟩

theorem snoc_inj {α : Type} {as bs : List α} {a b : α} (h : as ++ [a] = bs ++ [b]) :
    as = bs ∧ a = b := by
  have h1 := congrArg List.reverse h
  simp at h1
  exact ⟨h1.2, h1.1⟩

/-- Inserting never removes: membership survives one struct-like step. -/
theorem structLikeStep_mono {acc : List String} {a : RustTypeAlias} {n : String}
    (h : n ∈ acc) : n ∈ structLikeStep acc a := by
  rw [structLikeStep]
  split
  · exact List.mem_append_left _ h
  · exact h

/-- Membership survives the whole struct-like fold. -/
theorem structLike_foldl_mono :
    ∀ (aliases : List RustTypeAlias) (acc : List String) (n : String),
      n ∈ acc → n ∈ aliases.foldl structLikeStep acc
  | [], acc, n, h => h
  | a :: rest, acc, n, h =>
    structLike_foldl_mono rest (structLikeStep acc a) n (structLikeStep_mono h)

/-- Membership after one struct-like step, unfolded. -/
theorem mem_structLikeStep {acc : List String} {a : RustTypeAlias} {n : String} :
    n ∈ structLikeStep acc a ↔ n ∈ acc ∨ (a.ty.refId ∈ acc ∧ n = a.id.original) := by
  rw [structLikeStep]
  split
  · rename_i h
    simp [h]
  · rename_i h
    simp [h]

/-- The struct-like set of a snoc-extended alias list is one more step. -/
theorem structLikeSet_snoc (structs : List RustStruct) (as : List RustTypeAlias)
    (a : RustTypeAlias) :
    structLikeSet structs (as ++ [a]) = structLikeStep (structLikeSet structs as) a := by
  rw [structLikeSet, structLikeSet, List.foldl_append, List.foldl_cons, List.foldl_nil]

/-- Inversion: an ordered-struct-like derivation over the empty alias list
is a struct name. -/
theorem osl_nil {sn : List String} {l : List RustTypeAlias} {n : String}
    (h : OrderedStructLike sn l n) (hl : l = []) : n ∈ sn := by
  cases h with
  | base _ _ hn => exact hn
  | keep as' a' n' h' => exact absurd hl (by simp)
  | link as' a' h' => exact absurd hl (by simp)

/-- Inversion of an ordered-struct-like derivation over a snoc list. -/
theorem osl_snoc {sn : List String} {l as : List RustTypeAlias} {a : RustTypeAlias} {n : String}
    (h : OrderedStructLike sn l n) (hl : l = as ++ [a]) :
    OrderedStructLike sn as n ∨ (OrderedStructLike sn as a.ty.refId ∧ n = a.id.original) := by
  cases h with
  | base _ _ hn => exact Or.inl (.base as n hn)
  | keep as' a' n' h' =>
    obtain ⟨rfl, rfl⟩ := snoc_inj hl
    exact Or.inl h'
  | link as' a' h' =>
    obtain ⟨rfl, rfl⟩ := snoc_inj hl
    exact Or.inr ⟨h', rfl⟩

/-- C6 amended: a name is in the struct-like set exactly when it is a
struct name or the endpoint of an alias chain that proceeds strictly
leftwards through the alias list — the single in-order pass of the source
only propagates through chains laid out in declaration order. -/
theorem c6_ordered_chains (structs : List RustStruct) (aliases : List RustTypeAlias)
    (n : String) :
    n ∈ structLikeSet structs aliases ↔
      OrderedStructLike (structs.map (fun s => s.id.original)) aliases n := by
  induction aliases using List.reverseRecOn generalizing n with
  | nil =>
    rw [structLikeSet]
    simp only [List.foldl_nil]
    constructor
    · intro h
      exact .base [] n h
    · intro h
      exact osl_nil h rfl
  | append_singleton as a ih =>
    rw [structLikeSet_snoc, mem_structLikeStep]
    constructor
    · rintro (h | ⟨htar, rfl⟩)
      · exact .keep as a n ((ih n).mp h)
      · exact .link as a ((ih _).mp htar)
    · intro h
      rcases osl_snoc h rfl with h1 | ⟨h1, rfl⟩
      · exact Or.inl ((ih n).mpr h1)
      · exact Or.inr ⟨(ih _).mpr h1, rfl⟩

/-- C6 counterexample: with `struct A`, `alias C = B`, `alias B = A`
declared in that order, `C` is reachable through an alias chain (it is in
the order-independent closure, and in the set computed from the reversed
alias order) but is not in the set the source computes. -/
theorem c6_counterexample :
    ("C" ∈ structLikeClosure [structA] [aliasC, aliasB]) ∧
    ("C" ∉ structLikeSet [structA] [aliasC, aliasB]) ∧
    ("C" ∈ structLikeSet [structA] [aliasB, aliasC]) := by
  decide

/-- Unfolding of readiness: every dependency is a self-reference or leaves
the pending collection. -/
theorem readyIn_iff {pending : List RustItem} {x : RustItem} :
    readyIn pending x = true ↔
      ∀ d ∈ itemDeps x, d = itemName x ∨ d ∉ pending.map itemName := by
  simp [readyIn, List.all_eq_true]

/-- Readiness is preserved when the pending collection shrinks. -/
theorem readyIn_of_subset {l l' : List RustItem} {x : RustItem}
    (hsub : ∀ a ∈ l', a ∈ l) (h : readyIn l x = true) : readyIn l' x = true := by
  rw [readyIn_iff] at h ⊢
  intro d hd
  rcases h d hd with h1 | h1
  · exact Or.inl h1
  · refine Or.inr (fun hmem => h1 ?_)
    rcases List.mem_map.mp hmem with ⟨a, ha, rfl⟩
    exact List.mem_map_of_mem _ (hsub a ha)

/-- When every pending item is ready, the sorter is the identity: each
round extracts the head. -/
theorem topsortGo_allReady :
    ∀ (n : Nat) (pending : List RustItem),
      (∀ x ∈ pending, readyIn pending x = true) → topsortGo n pending = pending
  | 0, pending, h => rfl
  | n + 1, [], h => rfl
  | n + 1, a :: as, h => by
    rw [topsortGo, extractFirst, if_pos (h a (List.mem_cons_self a as))]
    have tail_ready : ∀ x ∈ as, readyIn as x = true := fun x hx =>
      readyIn_of_subset (fun b hb => List.mem_cons_of_mem a hb)
        (h x (List.mem_cons_of_mem a hx))
    show a :: topsortGo n as = a :: as
    rw [topsortGo_allReady n as tail_ready]

/-- C7 amended: when no item depends on another, the emitted order is the
worklist order — all aliases first (in input order), then all structs,
then all enums — rather than the input's declaration order. -/
theorem c7_kind_grouped (data : ParsedData) (h : Independent (worklist data)) :
    topsort (worklist data) =
      data.aliases.map RustItem.Alias ++ data.structs.map RustItem.Struct ++
        data.enums.map RustItem.Enum := by
  have hall : ∀ x ∈ worklist data, readyIn (worklist data) x = true :=
    List.all_eq_true.mp h
  rw [topsort, topsortGo_allReady _ _ hall]
  rfl

theorem c7_witness :
    Independent (worklist d7) ∧
    topsort (worklist d7) =
      d7.aliases.map RustItem.Alias ++ d7.structs.map RustItem.Struct ++
        d7.enums.map RustItem.Enum :=
  ⟨by unfold Independent; decide, c7_kind_grouped d7 (by unfold Independent; decide)⟩

/-- C7 counterexample: the struct `A` and the alias `Z` are independent,
the input's declaration order (structs, then enums, then aliases, §6) is
`A` before `Z`, but the emission order produced by the source puts the
alias `Z` first. -/
theorem c7_counterexample :
    Independent (declarationOrder d7) ∧
    (declarationOrder d7).map itemName = ["A", "Z"] ∧
    (topsort (worklist d7)).map itemName = ["Z", "A"] := by
  unfold Independent
  decide

/-- Properties of a successful extraction: the extracted element satisfies
the predicate, belongs to the list, the remainder is a sublist one
shorter, and re-consing the element permutes the original list. -/
theorem extractFirst_some {α : Type} (pr : α → Bool) :
    ∀ {l : List α} {x : α} {r : List α}, extractFirst pr l = some (x, r) →
      pr x = true ∧ x ∈ l ∧ List.Sublist r l ∧ r.length + 1 = l.length ∧
        List.Perm (x :: r) l
  | [], x, r, h => by simp [extractFirst] at h
  | a :: as, x, r, h => by
    rw [extractFirst] at h
    by_cases hpa : pr a
    · rw [if_pos hpa] at h
      simp only [Option.some.injEq, Prod.mk.injEq] at h
      obtain ⟨rfl, rfl⟩ := h
      exact ⟨hpa, List.mem_cons_self _ _, List.sublist_cons_self _ _, rfl,
        List.Perm.refl _⟩
    · rw [if_neg hpa] at h
      cases heq : extractFirst pr as with
      | none => rw [heq] at h; simp at h
      | some yr =>
        rw [heq] at h
        obtain ⟨y, ys⟩ := yr
        simp only [Option.map_some', Option.some.injEq, Prod.mk.injEq] at h
        obtain ⟨rfl, rfl⟩ := h
        obtain ⟨h1, h2, h3, h4, h5⟩ := extractFirst_some pr heq
        refine ⟨h1, List.mem_cons_of_mem a h2, List.Sublist.cons₂ a h3, by simp [h4], ?_⟩
        exact (List.Perm.swap a y ys).trans (List.Perm.cons a h5)

/-- A failed extraction means no element satisfies the predicate. -/
theorem extractFirst_none {α : Type} (pr : α → Bool) :
    ∀ {l : List α}, extractFirst pr l = none → ∀ x ∈ l, pr x = false
  | [], h, x, hx => absurd hx (List.not_mem_nil x)
  | a :: as, h, x, hx => by
    rw [extractFirst] at h
    by_cases hpa : pr a
    · rw [if_pos hpa] at h
      simp at h
    · rw [if_neg hpa] at h
      rcases List.mem_cons.mp hx with rfl | hx'
      · exact Bool.eq_false_iff.mpr hpa
      · cases heq : extractFirst pr as with
        | none => exact extractFirst_none pr heq x hx'
        | some yr => rw [heq] at h; simp at h

/-- The sorter permutes its input: picked items are re-emitted, and the
cycle fallback keeps the remainder. -/
theorem topsortGo_perm :
    ∀ (n : Nat) (pending : List RustItem), List.Perm (topsortGo n pending) pending
  | 0, pending => List.Perm.refl _
  | n + 1, pending => by
    rw [topsortGo]
    cases hext : extractFirst (readyIn pending) pending with
    | none => exact List.Perm.refl _
    | some xr =>
      obtain ⟨x, rest⟩ := xr
      obtain ⟨h1, h2, h3, h4, h5⟩ := extractFirst_some _ hext
      exact (List.Perm.cons x (topsortGo_perm n rest)).trans h5

/-- Progress: under the acyclicity condition restricted to sublists, a
nonempty pending list always yields an extraction. -/
theorem extractFirst_progress {pending : List RustItem}
    (hprog : ∀ sub, List.Sublist sub pending → sub ≠ [] → ∃ x ∈ sub, readyIn sub x = true)
    (hne : pending ≠ []) :
    ∃ x rest, extractFirst (readyIn pending) pending = some (x, rest) := by
  obtain ⟨x, hx, hrx⟩ := hprog pending (List.Sublist.refl _) hne
  cases hext : extractFirst (readyIn pending) pending with
  | none => exact absurd (extractFirst_none _ hext x hx) (by simp [hrx])
  | some xr => exact ⟨xr.1, xr.2, by simp⟩

/-- Core ordering invariant of the sorter: with enough fuel and progress on
every sublist, the output never places an item before one of its named
dependencies (unless the dependency is a self-reference by name). -/
theorem topsortGo_sorted :
    ∀ (n : Nat) (pending : List RustItem), pending.length ≤ n →
      (∀ sub, List.Sublist sub pending → sub ≠ [] → ∃ x ∈ sub, readyIn sub x = true) →
      SortedByDeps (topsortGo n pending)
  | 0, pending, hlen, hprog => by
    have hnil : pending = [] := List.length_eq_zero.mp (Nat.le_zero.mp hlen)
    subst hnil
    intro i j hi hj
    simp [topsortGo] at hi
  | n + 1, pending, hlen, hprog => by
    rw [topsortGo]
    cases hemp : pending with
    | nil =>
      rw [show extractFirst (readyIn ([] : List RustItem)) [] = none from rfl]
      intro i j hi hj
      simp at hi
    | cons a as =>
      rw [← hemp]
      obtain ⟨x, rest, hext⟩ := extractFirst_progress hprog (by simp [hemp])
      rw [hext]
      obtain ⟨hrx, hxmem, hsub, hlen', hperm⟩ := extractFirst_some _ hext
      have ihsorted : SortedByDeps (topsortGo n rest) :=
        topsortGo_sorted n rest (by omega)
          (fun sub hs hne => hprog sub (hs.trans hsub) hne)
      intro i j hi hj hdep
      cases j with
      | zero => exact Or.inr (Nat.zero_le i)
      | succ b =>
        cases i with
        | zero =>
          simp only [List.get_cons_succ, List.get_cons_zero] at hdep ⊢
          have hb : b < (topsortGo n rest).length := by
            simp at hj
            omega
          have hy_rest : (topsortGo n rest).get ⟨b, hb⟩ ∈ rest :=
            (topsortGo_perm n rest).mem_iff.mp (List.get_mem _ _ _)
          have hy_pending : (topsortGo n rest).get ⟨b, hb⟩ ∈ pending :=
            hsub.subset hy_rest
          have hready := readyIn_iff.mp hrx _ hdep
          rcases hready with h1 | h1
          · exact Or.inl h1
          · exact absurd (List.mem_map_of_mem itemName hy_pending) h1
        | succ c =>
          simp only [List.get_cons_succ] at hdep ⊢
          rcases ihsorted c b (by simpa using hi) (by simpa using hj) hdep with h1 | h1
          · exact Or.inl h1
          · exact Or.inr (by omega)

/-- An acyclic reference graph yields the Kahn progress condition on every
sublist of the items. -/
theorem acyclic_progress {items : List RustItem} (h : Acyclic items) :
    ∀ sub, List.Sublist sub items → sub ≠ [] → ∃ x ∈ sub, readyIn sub x = true := by
  intro sub hs hne
  have hall := List.all_eq_true.mp h sub (List.mem_sublists.mpr hs)
  rcases Bool.or_eq_true .. ▸ hall with h1 | h1
  · exact absurd (List.isEmpty_iff.mp h1) hne
  · exact List.any_eq_true.mp h1

/-- C3: for every snapshot whose reference graph is acyclic, the emission
order respects dependencies — every item referenced by name is emitted at
or before its referrer, and every item of the worklist is emitted — and
on the spec's end-to-end example the run emits `Point`'s class before the
`Coordinates` alias. -/
theorem c3_dependency_order :
    (∀ data : ParsedData, Acyclic (worklist data) →
      SortedByDeps (topsort (worklist data)) ∧
        List.Perm (topsort (worklist data)) (worklist data)) ∧
    generate_types pyDefault [] pointData =
      (["\n", "class Point:\n", "\tx: float\n", "\ty: float\n", "\n",
        "Coordinates = list[Point]\n\n"], .ok) := by
  constructor
  · intro data h
    exact ⟨topsortGo_sorted _ _ (Nat.le_refl _) (acyclic_progress h),
      topsortGo_perm _ _⟩
  · decide

theorem c3_witness :
    Acyclic (worklist pointData) ∧
    (SortedByDeps (topsort (worklist pointData)) ∧
      List.Perm (topsort (worklist pointData)) (worklist pointData)) :=
  ⟨by unfold Acyclic acyclicB; decide,
   c3_dependency_order.1 pointData (by unfold Acyclic acyclicB; decide)⟩

/-- Identifier characters pass through the `Debug` escape unchanged. -/
theorem escapeChar_of_ident {c : Char} (h : isIdentChar c = true) : escapeChar c = [c] := by
  have h1 : ¬ c = '"' := fun e => by subst e; exact absurd h (by decide)
  have h2 : ¬ c = '\\' := fun e => by subst e; exact absurd h (by decide)
  have h3 : ¬ c = '\t' := fun e => by subst e; exact absurd h (by decide)
  have h4 : ¬ c = '\n' := fun e => by subst e; exact absurd h (by decide)
  have h5 : ¬ c = '\r' := fun e => by subst e; exact absurd h (by decide)
  rw [escapeChar, if_neg h1, if_neg h2, if_neg h3, if_neg h4, if_neg h5]

/-- A list of identifier characters is unchanged by the escape. -/
theorem flatMap_escape_of_ident :
    ∀ (l : List Char), (∀ c ∈ l, isIdentChar c = true) → l.flatMap escapeChar = l
  | [], h => rfl
  | c :: cs, h => by
    rw [List.flatMap_cons, escapeChar_of_ident (h c (List.mem_cons_self c cs)),
      flatMap_escape_of_ident cs (fun d hd => h d (List.mem_cons_of_mem c hd))]
    rfl

/-- An identifier-only name survives the `Debug` escape verbatim. -/
theorem debugEscape_of_ident {s : String} (h : ∀ c ∈ s.data, isIdentChar c = true) :
    debugEscape s = s := by
  apply String.ext
  exact flatMap_escape_of_ident s.data h

/-- A comment line never coincides with a rename-annotation line: their
second characters differ. -/
theorem comment_ne_marker (c renamed : String) :
    tabs 1 ++ "# " ++ c ++ "\n" ≠ "\t@JsonProperty(\"" ++ renamed ++ "\")\n" := by
  have ht : tabs 1 = "\t" := rfl
  rw [ht]
  intro h
  have h2 := congrArg (fun s => s.data.get? 1) h
  simp [String.data_append] at h2

/-- A field line whose identifier contains only identifier characters
never coincides with a rename-annotation line. -/
theorem fieldLine_ne_marker (orig t suffix renamed : String)
    (h1 : ∀ ch ∈ orig.data, isIdentChar ch = true) :
    "\t" ++ orig ++ ": " ++ t ++ suffix ++ "\n" ≠
      "\t@JsonProperty(\"" ++ renamed ++ "\")\n" := by
  intro h
  obtain ⟨od⟩ := orig
  cases od with
  | nil =>
    have h2 := congrArg (fun s => s.data.get? 1) h
    simp [String.data_append] at h2
  | cons c0 cs =>
    have h2 := congrArg (fun s => s.data.get? 1) h
    simp [String.data_append] at h2
    have hc0 := h1 c0 (List.mem_cons_self c0 cs)
    rw [isIdentChar, h2] at hc0
    simp at hc0

/-- C5: for every field whose names are plain identifiers and whose type
resolves, the emitted chunks contain the field's original identifier, and
they contain the `@JsonProperty` annotation referencing the renamed
identifier exactly when the renamed name differs from the original. -/
theorem c5_rename_marker (p : Python) (f : RustField) (g : List String)
    (hOrig : ∀ c ∈ f.id.original.data, isIdentChar c = true)
    (hRen : ∀ c ∈ f.id.renamed.data, isIdentChar c = true)
    (t : String) (hok : typeNameOf p f g = .ok t) :
    (∃ chunk ∈ (write_field p [] f g).1, ∃ a b : String,
      chunk = a ++ f.id.original ++ b) ∧
    (("\t@JsonProperty(\"" ++ f.id.renamed ++ "\")\n") ∈ (write_field p [] f g).1 ↔
      f.id.renamed ≠ f.id.original) := by
  rw [write_field, hok]
  simp only [List.nil_append]
  constructor
  · refine ⟨fieldChunk f t, by simp, "\t",
      ": " ++ t ++ (if f.ty.is_optional then "|None" else "") ++ "\n", ?_⟩
    rw [fieldChunk]
    simp [String.append_assoc]
  · constructor
    · intro hmem
      intro heq
      have hrc : renameChunks f = [] := by
        rw [renameChunks, if_neg (by simp [heq])]
      rw [hrc] at hmem
      simp only [List.append_nil, List.mem_append, List.mem_singleton] at hmem
      rcases hmem with hcc | hfc
      · rcases List.mem_map.mp hcc with ⟨c, hc, hceq⟩
        exact comment_ne_marker c f.id.renamed hceq
      · exact fieldLine_ne_marker f.id.original t _ f.id.renamed hOrig
          (by rw [← fieldChunk]; exact hfc.symm)
    · intro hne
      rw [renameChunks, if_pos hne, debugEscape_of_ident hRen]
      simp

theorem c5_witness :
    (∃ chunk ∈ (write_field pyDefault [] userField []).1, ∃ a b : String,
      chunk = a ++ userField.id.original ++ b) ∧
    (("\t@JsonProperty(\"" ++ userField.id.renamed ++ "\")\n") ∈
        (write_field pyDefault [] userField []).1 ↔
      userField.id.renamed ≠ userField.id.original) :=
  c5_rename_marker pyDefault userField [] (by decide) (by decide) "str" rfl

theorem c1_witness :
    write_enum ["\n"] colorEnum ["A"] =
      (["\n"], .panicked "Enums are not supported in python") :=
  c1_enum_write_panics.1 ["\n"] colorEnum ["A"]

theorem c6_witness :
    ("B" ∈ structLikeSet [structA] [aliasB, aliasC]) ↔
      OrderedStructLike ([structA].map (fun s => s.id.original)) [aliasB, aliasC] "B" :=
  c6_ordered_chains [structA] [aliasB, aliasC] "B"

theorem c9_witness :
    write_type_alias pyDefault []
      { coordinatesAlias with id := { coordinatesAlias.id with renamed := "Renamed" } } =
      write_type_alias pyDefault [] coordinatesAlias :=
  c9_alias_rename_ignored.1 pyDefault [] coordinatesAlias "Renamed"
